import Mathlib

/-!
Verification of the multiplayer room coordinator of the sudoku-multiplayer
server (`server/app.py`, with helpers from `server/edge_case_utils.py` and
`server/sudoku_generator.py`).

The socket handlers are shallowly embedded as pure state-transition
functions `ServerState → input → ServerState × List Event`.  Randomness
(`secrets.randbelow`) and the externally generated puzzle boards are passed
in as explicit oracle arguments.  Python's stable `sorted(..., reverse=True)`
is modelled by Mathlib's stable `List.insertionSort` with the corresponding
"key of left ≥ key of right" total preorder.
-/

namespace SudokuMP

/-- A 9x9 board, `room["puzzle"]` / `room["solution"]` in `app.py`. -/
abbrev Board := List (List Nat)

/-- A player entry of `room["players"]` (see `handle_create_room`,
`app.py` lines 714-721).  The `time` field is absent until set by
`handle_game_finished`; Python reads it with `.get("time", 0)`, so it is
modelled as a `Nat` that starts at `0`. -/
structure Player where
  username : String
  sessionId : Nat
  ready : Bool
  score : Nat
  finished : Bool
  eliminated : Bool
  time : Nat
  deriving Repr, DecidableEq, Inhabited

/-- A room of the `game_rooms` registry (`handle_create_room`, lines 707-730). -/
structure Room where
  code : Nat
  host : String
  difficulty : String
  maxPlayers : Nat
  gameMode : String
  status : String
  players : List Player
  puzzle : Board
  solution : Board
  initialCells : List (Nat × Nat)
  playerCells : List (String × List (Nat × Nat × Nat))
  mistakes : List (String × Nat)
  hintsUsed : List (String × Nat)
  currentTurn : Option String
  createdAt : Nat
  boardSeed : Nat
  deriving Repr, DecidableEq, Inhabited

/-- An entry of the `player_sessions` registry. -/
structure PSession where
  username : String
  roomCode : Nat
  deriving Repr, DecidableEq, Inhabited

/-- The two shared registries `game_rooms` and `player_sessions`, modelled as
insertion-ordered association lists (Python dicts preserve insertion order). -/
structure ServerState where
  rooms : List (Nat × Room)
  sessions : List (Nat × PSession)
  deriving Repr, DecidableEq, Inhabited

/-- Events emitted by the handlers (socket.io `emit` calls), in order. -/
inductive Event where
  | errorMsg (msg : String)
  | roomCreated (code : Nat) (difficulty : String) (maxPlayers : Nat) (gameMode : String)
  | roomJoined (code : Nat) (difficulty : String) (host : String) (players : List Player)
  | playerJoined (username : String) (players : List Player)
  | playerLeft (username : String) (playersRemaining : Nat) (players : List Player)
  | leftRoom
  | playerReadyUpdate (username : String) (players : List Player) (allReady : Bool)
  | gameStart (difficulty : String) (puzzle : Board) (gameMode : String)
      (currentTurn : Option String) (players : List Player)
  | playerAction (username : String) (action : String) (row col : Option Int)
  | turnChanged (currentTurn : String)
  | playerEliminatedWin (username : String) (winner : String)
  | playerEliminated (username : String)
  | gameEnded (results : List Player)
  | gameEndedWin (winner : String) (results : List Player)
  | playerFinished (username : String)
  | cellUpdate (username : String) (row col num : Nat) (isCorrect : Bool)
  | mistakeEv (username : String) (count : Nat)
  deriving Repr, DecidableEq

/-- Whether an event is a `game_ended` broadcast (either payload shape). -/
def Event.isGameEnded : Event → Bool
  | Event.gameEnded _ => true
  | Event.gameEndedWin _ _ => true
  | _ => false

/-! ### Association-list registry operations (Python dict get/set/del) -/

/-- `d.get(k)` / `d[k]` on an insertion-ordered dict. -/
def lookupA {α : Type} : List (Nat × α) → Nat → Option α
  | [], _ => none
  | (k', v) :: tl, k => if k' = k then some v else lookupA tl k

/-- `k in d`. -/
def containsA {α : Type} (l : List (Nat × α)) (k : Nat) : Bool :=
  (lookupA l k).isSome

/-- `d[k] = v`: replace the entry in place keeping its position, or append
a new one (Python dicts preserve insertion order). -/
def setA {α : Type} : List (Nat × α) → Nat → α → List (Nat × α)
  | [], k, v => [(k, v)]
  | (k', v') :: tl, k, v =>
    if k' = k then (k, v) :: tl else (k', v') :: setA tl k v

/-- `del d[k]`. -/
def delA {α : Type} : List (Nat × α) → Nat → List (Nat × α)
  | [], _ => []
  | (k', v') :: tl, k => if k' = k then delA tl k else (k', v') :: delA tl k

/-- String-keyed dict lookup (for `mistakes` / `player_cells`). -/
def lookupS {α : Type} : List (String × α) → String → Option α
  | [], _ => none
  | (k', v) :: tl, k => if k' = k then some v else lookupS tl k

/-- String-keyed dict update. -/
def setS {α : Type} : List (String × α) → String → α → List (String × α)
  | [], k, v => [(k, v)]
  | (k', v') :: tl, k, v =>
    if k' = k then (k, v) :: tl else (k', v') :: setS tl k v

/-- Python's `for p in players: if cond(p): mutate(p); break` pattern:
update the first matching element only. -/
def setFirst (pred : Player → Bool) (f : Player → Player) : List Player → List Player
  | [] => []
  | p :: ps => if pred p then f p :: ps else p :: setFirst pred f ps

/-! ### Ranking orders

`handle_game_action` (line 1054) sorts by `key=lambda x: (not x["eliminated"],
x["score"])` with `reverse=True`; `handle_game_finished` (lines 1184-1188)
sorts by `key=lambda x: (x.get("score", 0), -x.get("time", 0))` with
`reverse=True`.  A Python stable descending sort by key `k` is the stable
sort with respect to the total preorder `k a ≥ k b`; we embed it with
Mathlib's stable `List.insertionSort`. -/

/-- The numeric first component of the elimination ranking key
(`not x["eliminated"]` as `0`/`1`). -/
def elimKey (p : Player) : Nat := if p.eliminated then 0 else 1

/-- "May come before" order for the elimination ranking:
`(not eliminated, score)` of the left is lexicographically ≥ that of the right. -/
def elimRel (a b : Player) : Prop :=
  elimKey b < elimKey a ∨ (elimKey a = elimKey b ∧ b.score ≤ a.score)

/-- "May come before" order for the race ranking: `(score, -time)` of the
left is lexicographically ≥ that of the right, i.e. score descending with
time ascending as the tie-break. -/
def raceRel (a b : Player) : Prop :=
  b.score < a.score ∨ (a.score = b.score ∧ a.time ≤ b.time)

instance : DecidableRel elimRel := fun a b => by unfold elimRel; infer_instance

instance : DecidableRel raceRel := fun a b => by unfold raceRel; infer_instance

instance : IsTotal Player elimRel :=
  ⟨fun a b => by unfold elimRel; omega⟩

instance : IsTrans Player elimRel :=
  ⟨fun a b c h1 h2 => by unfold elimRel at *; omega⟩

instance : IsTotal Player raceRel :=
  ⟨fun a b => by unfold raceRel; omega⟩

instance : IsTrans Player raceRel :=
  ⟨fun a b c h1 h2 => by unfold raceRel at *; omega⟩

/-- `sorted(players, key=lambda x: (not x["eliminated"], x["score"]), reverse=True)`. -/
def sortElim (l : List Player) : List Player := List.insertionSort elimRel l

/-- `sorted(players, key=lambda x: (x.get("score",0), -x.get("time",0)), reverse=True)`. -/
def sortRace (l : List Player) : List Player := List.insertionSort raceRel l

/-! ### Puzzle collaborator (`sudoku_generator.py`) -/

/-- `board[row][col]` with out-of-range reads defaulting to 0 (all handler
accesses are bounds-checked before use). -/
def cellAt (b : Board) (r c : Nat) : Nat := (b.getD r []).getD c 0

/-- `board[row][col] = n`. -/
def setCell (b : Board) (r c n : Nat) : Board := b.set r ((b.getD r []).set c n)

/-- `SudokuGenerator.validate_move` (lines 116-135): clearing is always
valid, otherwise the move must match the solution. -/
def validateMove (solution : Board) (r c n : Nat) : Bool :=
  if n == 0 then true else cellAt solution r c == n

/-- `SudokuGenerator.check_complete` (lines 151-157). -/
def checkComplete (b s : Board) : Bool :=
  (List.range 9).all (fun r => (List.range 9).all (fun c => cellAt b r c == cellAt s r c))

/-- `SudokuGenerator.get_initial_cells` (lines 175-177): the initially
non-empty cells of the puzzle. -/
def getInitialCells (b : Board) : List (Nat × Nat) :=
  (List.range 9).flatMap
    (fun r => ((List.range 9).filter (fun c => cellAt b r c != 0)).map (fun c => (r, c)))

/-! ### Room code generation (`edge_case_utils.py`) -/

/-- One retry loop of `generate_room_code_with_retry` (lines 123-127 and
133-136): draw `fuel` candidate codes from the randomness oracle starting at
draw index `i`; return the first one not in the registry. -/
def tryCodes (oracle : Nat → Fin 1000000) (rooms : List (Nat × Room)) :
    Nat → Nat → Option Nat
  | _, 0 => none
  | i, fuel + 1 =>
    let c := (oracle i).val
    if containsA rooms c then tryCodes oracle rooms (i + 1) fuel else some c

/-- `cleanup_inactive_rooms` (lines 92-113): drop every room whose
`created_at` is older than `maxAgeMinutes` before `now` (times in seconds). -/
def cleanupInactiveRooms (rooms : List (Nat × Room)) (now maxAgeMinutes : Nat) :
    List (Nat × Room) :=
  rooms.filter (fun p => !(decide (p.2.createdAt + maxAgeMinutes * 60 < now)))

/-- `generate_room_code_with_retry` (lines 116-138): 100 draws; on
exhaustion clean up rooms idle for 30 minutes and retry 100 more draws;
then fail with the capacity error.  Returns (code?, error?, registry after). -/
def generateRoomCodeWithRetry (oracle : Nat → Fin 1000000)
    (rooms : List (Nat × Room)) (now : Nat) :
    Option Nat × Option String × List (Nat × Room) :=
  match tryCodes oracle rooms 0 100 with
  | some c => (some c, none, rooms)
  | none =>
    let rooms2 := cleanupInactiveRooms rooms now 30
    match tryCodes oracle rooms2 100 100 with
    | some c => (some c, none, rooms2)
    | none => (none, some "Server at capacity - all room codes in use", rooms2)

/-- The decimal digit string of a code as produced by
`str(code).zfill(6)`: most-significant first, left-padded with zeros. -/
def zfill6 (n : Nat) : List Nat :=
  let ds := (Nat.digits 10 n).reverse
  List.replicate (6 - ds.length) 0 ++ ds

/-! ### Socket handlers (`app.py`) -/

/-- The room literal built by `handle_create_room` (lines 707-730).
`current_turn` is the creator for game mode `"turn_based"` and `None`
otherwise (line 728). -/
def mkRoom (code sid : Nat) (username difficulty gameMode : String)
    (maxPlayers : Nat) (puzzle solution : Board) (now : Nat) : Room :=
  { code := code
    host := username
    difficulty := difficulty
    maxPlayers := maxPlayers
    gameMode := gameMode
    status := "waiting"
    players := [{ username := username, sessionId := sid, ready := false,
                  score := 0, finished := false, eliminated := false, time := 0 }]
    puzzle := puzzle
    solution := solution
    initialCells := getInitialCells puzzle
    playerCells := []
    mistakes := []
    hintsUsed := []
    currentTurn := if gameMode == "turn_based" then some username else none
    createdAt := now
    boardSeed := 0 }

/-- `handle_create_room` (lines 667-746).  The puzzle/solution pair produced
by the random generator is an explicit argument, as is the room-code
randomness oracle.  When code generation fails the Python code raises out of
the handler having emitted nothing (but the cleanup sweep has already
mutated the registry). -/
def handleCreateRoom (st : ServerState) (sid : Nat)
    (username difficulty gameMode : String) (maxPlayersInput : Int)
    (oracle : Nat → Fin 1000000) (puzzle solution : Board) (now : Nat) :
    ServerState × List Event :=
  if st.rooms.length ≥ 1000 then
    (st, [Event.errorMsg "Server at capacity. Please try again later."])
  else if ¬ (2 ≤ maxPlayersInput ∧ maxPlayersInput ≤ 10) then
    (st, [Event.errorMsg "Invalid max players"])
  else
    match generateRoomCodeWithRetry oracle st.rooms now with
    | (none, _, rooms2) => ({ st with rooms := rooms2 }, [])
    | (some code, _, rooms2) =>
      let room := mkRoom code sid username difficulty gameMode
        maxPlayersInput.toNat puzzle solution now
      ({ rooms := setA rooms2 code room
         sessions := setA st.sessions sid { username := username, roomCode := code } },
       [Event.roomCreated code difficulty maxPlayersInput.toNat gameMode])

/-- `handle_join_room` (lines 748-831).  The raw room code arrives as an
integer after `int()` conversion (conversion failures never reach the room
logic and are omitted). -/
def handleJoinRoom (st : ServerState) (sid : Nat) (roomCodeRaw : Int)
    (username : String) : ServerState × List Event :=
  if st.sessions.length ≥ 10000 then
    (st, [Event.errorMsg "Server at capacity. Please try again later."])
  else if roomCodeRaw < 0 ∨ roomCodeRaw > 999999 then
    (st, [Event.errorMsg "Invalid room code - must be between 000000 and 999999"])
  else if username == "" then
    (st, [Event.errorMsg "Username required"])
  else
    let roomCode := roomCodeRaw.toNat
    match lookupA st.rooms roomCode with
    | none => (st, [Event.errorMsg "Room not found"])
    | some room =>
      if room.status != "waiting" then
        (st, [Event.errorMsg "Game already in progress"])
      else if room.players.length ≥ room.maxPlayers then
        (st, [Event.errorMsg "Room is full"])
      else
        let newPlayer : Player :=
          { username := username, sessionId := sid, ready := false,
            score := 0, finished := false, eliminated := false, time := 0 }
        let players2 := room.players ++ [newPlayer]
        ({ rooms := setA st.rooms roomCode { room with players := players2 }
           sessions := setA st.sessions sid { username := username, roomCode := roomCode } },
         [Event.roomJoined roomCode room.difficulty room.host players2,
          Event.playerJoined username players2])

/-- `handle_leave_room` (lines 833-867). -/
def handleLeaveRoom (st : ServerState) (sid : Nat) : ServerState × List Event :=
  match lookupA st.sessions sid with
  | none => (st, [])
  | some sess =>
    match lookupA st.rooms sess.roomCode with
    | none => ({ st with sessions := delA st.sessions sid }, [])
    | some room =>
      let remaining := room.players.filter (fun p => p.sessionId != sid)
      let rooms2 :=
        if remaining.length == 0 then delA st.rooms sess.roomCode
        else setA st.rooms sess.roomCode { room with players := remaining }
      ({ rooms := rooms2, sessions := delA st.sessions sid },
       [Event.leftRoom, Event.playerLeft sess.username remaining.length remaining])

/-- `handle_disconnect` (lines 632-665): like leaving, but with no
`left_room` acknowledgement and a no-op when the connection has no session. -/
def handleDisconnect (st : ServerState) (sid : Nat) : ServerState × List Event :=
  match lookupA st.sessions sid with
  | none => (st, [])
  | some sess =>
    match lookupA st.rooms sess.roomCode with
    | none => ({ st with sessions := delA st.sessions sid }, [])
    | some room =>
      let remaining := room.players.filter (fun p => p.sessionId != sid)
      let rooms2 :=
        if remaining.length == 0 then delA st.rooms sess.roomCode
        else setA st.rooms sess.roomCode { room with players := remaining }
      ({ rooms := rooms2, sessions := delA st.sessions sid },
       [Event.playerLeft sess.username remaining.length remaining])

/-- `handle_change_game_mode` (lines 869-938): host-only forced restart.
`current_turn` is the host for new mode `"luck"`, else `None` (line 901);
everyone is auto-readied and the room jumps straight to `"playing"`. -/
def handleChangeGameMode (st : ServerState) (sid : Nat) (newMode : String)
    (seed : Nat) (puzzle solution : Board) : ServerState × List Event :=
  match lookupA st.sessions sid with
  | none => (st, [])
  | some sess =>
    match lookupA st.rooms sess.roomCode with
    | none => (st, [])
    | some room =>
      if room.host != sess.username then
        (st, [Event.errorMsg "Only host can change game mode"])
      else
        let room2 := { room with
          gameMode := newMode
          boardSeed := seed
          currentTurn := if newMode == "luck" then some sess.username else none
          players := room.players.map (fun p => { p with ready := true })
          status := "playing"
          puzzle := puzzle
          solution := solution
          initialCells := getInitialCells puzzle
          playerCells := []
          mistakes := []
          hintsUsed := [] }
        ({ st with rooms := setA st.rooms sess.roomCode room2 },
         [Event.gameStart room2.difficulty room2.puzzle room2.gameMode
            room2.currentTurn room2.players])

/-- The `player["ready"] = True` loop of `handle_player_ready`
(lines 955-958). -/
def readyMark (sid : Nat) (players : List Player) : List Player :=
  setFirst (fun p => p.sessionId == sid) (fun p => { p with ready := true }) players

/-- `handle_player_ready` (lines 940-979): set the caller ready; start the
game when everyone is ready and at least two players are present.  Nothing
else is touched: no fresh board, no turn initialisation, no field reset. -/
def handlePlayerReady (st : ServerState) (sid : Nat) : ServerState × List Event :=
  match lookupA st.sessions sid with
  | none => (st, [])
  | some sess =>
    match lookupA st.rooms sess.roomCode with
    | none => (st, [])
    | some room =>
      let players2 := readyMark sid room.players
      let allReady := players2.all (fun p => p.ready)
      let ev1 := Event.playerReadyUpdate sess.username players2 allReady
      if allReady ∧ 2 ≤ players2.length then
        let room2 := { room with players := players2, status := "playing" }
        ({ st with rooms := setA st.rooms sess.roomCode room2 },
         [ev1, Event.gameStart room.difficulty room.puzzle room.gameMode
            room.currentTurn players2])
      else
        let room2 := { room with players := players2 }
        ({ st with rooms := setA st.rooms sess.roomCode room2 }, [ev1])

/-- The bounds check of `handle_game_action` on an optional coordinate
(lines 1007-1017): reject values outside 0..100. -/
def boundBad : Option Int → Bool
  | none => false
  | some v => decide (v < 0) || decide (v > 100)

/-- `clicks = max(0, min(clicks, 100000))` (line 1028). -/
def clampClicks (clicks : Int) : Nat := (max 0 (min clicks 100000)).toNat

/-- The per-player elimination update of `handle_game_action`
(lines 1032-1037). -/
def elimMark (clicks : Int) (p : Player) : Player :=
  { p with eliminated := true, finished := true, score := clampClicks clicks }

/-- The `players` list after the elimination loop (first matching session
only, Python `break`). -/
def elimPlayers (sid : Nat) (clicks : Int) (players : List Player) : List Player :=
  setFirst (fun p => p.sessionId == sid) (elimMark clicks) players

/-- `winner["finished"] = True` (line 1045): the sole non-eliminated entry
of the aliased players list gets `finished = true`. -/
def finishWinner (players : List Player) : List Player :=
  players.map (fun p => if p.eliminated then p else { p with finished := true })

/-- The `while attempts < max_attempts and players[next_idx]["eliminated"]`
scan of `handle_game_action` (lines 1092-1099 and 1120-1127): starting at
`idx`, return the first index holding a non-eliminated player within `fuel`
probes, wrapping modulo the player count. -/
def nextTurnIdx (players : List Player) : Nat → Nat → Option Nat
  | _, 0 => none
  | idx, fuel + 1 =>
    if (players.getD idx default).eliminated then
      nextTurnIdx players ((idx + 1) % players.length) fuel
    else some idx

/-- The turn-advance block of `handle_game_action`: locate the current
holder (defaulting to index 0, also when `current_turn` is `None`), scan
from the next seat, and rotate the turn if a live player is found. -/
def advanceTurn (room : Room) : Room × List Event :=
  let currentIdx :=
    (room.players.findIdx? (fun p => some p.username == room.currentTurn)).getD 0
  let startIdx := (currentIdx + 1) % room.players.length
  match nextTurnIdx room.players startIdx room.players.length with
  | some i =>
    let u := (room.players.getD i default).username
    ({ room with currentTurn := some u }, [Event.turnChanged u])
  | none => (room, [])

/-- Reset of per-player state on return to the waiting room
(lines 1063-1067, 1076-1080, 1196-1200). -/
def resetPlayers (players : List Player) : List Player :=
  players.map (fun p =>
    { p with ready := false, score := 0, finished := false, eliminated := false })

/-- `handle_game_action` (lines 981-1131).  Note: no check of the actor's
`eliminated` flag, of the room status, or of `current_turn` anywhere. -/
def handleGameAction (st : ServerState) (sid : Nat) (action : String)
    (row col : Option Int) (clicks : Int) : ServerState × List Event :=
  match lookupA st.sessions sid with
  | none => (st, [])
  | some sess =>
    match lookupA st.rooms sess.roomCode with
    | none => (st, [])
    | some room =>
      if action != "reveal" ∧ action != "flag" ∧ action != "eliminated" then (st, [])
      else if (action == "reveal" ∨ action == "flag") ∧ (boundBad row ∨ boundBad col) then
        (st, [])
      else if action == "eliminated" then
        let players1 := elimPlayers sid clicks room.players
        let active := players1.filter (fun p => !p.eliminated)
        if active.length == 1 then
          let winner := active.getD 0 default
          let players2 := finishWinner players1
          let room2 := { room with status := "waiting", players := resetPlayers players2 }
          ({ st with rooms := setA st.rooms sess.roomCode room2 },
           [Event.playerEliminatedWin sess.username winner.username,
            Event.gameEnded (sortElim players2)])
        else if active.length == 0 then
          let room2 := { room with status := "waiting", players := resetPlayers players1 }
          ({ st with rooms := setA st.rooms sess.roomCode room2 },
           [Event.gameEnded players1])
        else
          if room.gameMode == "luck" then
            let ar := advanceTurn { room with players := players1 }
            ({ st with rooms := setA st.rooms sess.roomCode ar.1 },
             Event.playerEliminated sess.username :: ar.2)
          else
            let room2 := { room with players := players1 }
            ({ st with rooms := setA st.rooms sess.roomCode room2 },
             [Event.playerEliminated sess.username])
      else
        let ev := Event.playerAction sess.username action row col
        if room.gameMode == "luck" ∧ action == "reveal" then
          let ar := advanceTurn room
          ({ st with rooms := setA st.rooms sess.roomCode ar.1 }, ev :: ar.2)
        else
          (st, [ev])

/-- Score/time sanitisation of `handle_game_finished` (lines 1151-1162). -/
def clampScoreTime (score time : Int) : Nat × Nat :=
  if score < 0 ∨ time < 0 then (0, 0)
  else if score == 0 ∧ time > 10 then (0, 0)
  else ((min score 10000).toNat, (min time 86400).toNat)

/-- The per-player update of `handle_game_finished` (lines 1165-1170). -/
def finishMark (sid : Nat) (s t : Nat) (players : List Player) : List Player :=
  setFirst (fun p => p.sessionId == sid)
    (fun p => { p with score := s, time := t, finished := true }) players

/-- `handle_game_finished` (lines 1133-1200). -/
def handleGameFinished (st : ServerState) (sid : Nat) (score time : Int) :
    ServerState × List Event :=
  match lookupA st.sessions sid with
  | none => (st, [])
  | some sess =>
    match lookupA st.rooms sess.roomCode with
    | none => (st, [])
    | some room =>
      let ct := clampScoreTime score time
      let players1 := finishMark sid ct.1 ct.2 room.players
      let allFinished := players1.all (fun p => p.finished)
      let ev1 := Event.playerFinished sess.username
      if allFinished then
        let room2 := { room with status := "waiting", players := resetPlayers players1 }
        ({ st with rooms := setA st.rooms sess.roomCode room2 },
         [ev1, Event.gameEnded (sortRace players1)])
      else
        let room2 := { room with players := players1 }
        ({ st with rooms := setA st.rooms sess.roomCode room2 }, [ev1])

/-- `handle_place_number` (lines 1206-1307).  On puzzle completion the room
resets `ready`, `score` and `finished` for every player — but, unlike every
other reset path, not `eliminated` (lines 1303-1307). -/
def handlePlaceNumber (st : ServerState) (sid : Nat) (row col number : Int) :
    ServerState × List Event :=
  match lookupA st.sessions sid with
  | none => (st, [])
  | some sess =>
    match lookupA st.rooms sess.roomCode with
    | none => (st, [])
    | some room =>
      if room.status != "playing" then (st, [])
      else if row < 0 ∨ row > 8 ∨ col < 0 ∨ col > 8 then
        (st, [Event.errorMsg "Invalid cell coordinates"])
      else if number < 0 ∨ number > 9 then
        (st, [Event.errorMsg "Invalid number"])
      else
        let r := row.toNat
        let c := col.toNat
        let n := number.toNat
        if room.initialCells.contains (r, c) then
          (st, [Event.errorMsg "Cannot modify initial cells"])
        else
          let isCorrect := validateMove room.solution r c n
          let mistakeCnt := (lookupS room.mistakes sess.username).getD 0 + 1
          let hasMistake := !isCorrect ∧ n ≠ 0
          let mistakes2 :=
            if hasMistake then setS room.mistakes sess.username mistakeCnt
            else room.mistakes
          let cells0 := (lookupS room.playerCells sess.username).getD []
          let cells1 := cells0.filter (fun t => !(t.1 == r ∧ t.2.1 == c))
          let cells2 := if n ≠ 0 then cells1 ++ [(r, c, n)] else cells1
          let puzzle2 := setCell room.puzzle r c n
          let room1 := { room with
            mistakes := mistakes2
            playerCells := setS room.playerCells sess.username cells2
            puzzle := puzzle2 }
          let evs :=
            (if hasMistake then [Event.mistakeEv sess.username mistakeCnt] else [])
              ++ [Event.cellUpdate sess.username r c n isCorrect]
          if checkComplete puzzle2 room.solution then
            let players1 := setFirst (fun p => p.username == sess.username)
              (fun p => { p with finished := true, score := cells2.length }) room1.players
            let room2 := { room1 with
              status := "waiting"
              players := players1.map
                (fun p => { p with ready := false, score := 0, finished := false }) }
            ({ st with rooms := setA st.rooms sess.roomCode room2 },
             evs ++ [Event.gameEndedWin sess.username players1])
          else
            ({ st with rooms := setA st.rooms sess.roomCode room1 }, evs)

/-! ### Registry lemmas -/

theorem lookupA_setA_self {α : Type} (l : List (Nat × α)) (k : Nat) (v : α) :
    lookupA (setA l k v) k = some v := by
  induction l with
  | nil => simp [setA, lookupA]
  | cons hd tl ih =>
    obtain ⟨k', v'⟩ := hd
    by_cases h : k' = k
    · simp [setA, lookupA, h]
    · simpa [setA, lookupA, h] using ih

theorem lookupA_setA_ne {α : Type} (l : List (Nat × α)) (k k' : Nat) (v : α)
    (h : k' ≠ k) : lookupA (setA l k v) k' = lookupA l k' := by
  induction l with
  | nil => simp [setA, lookupA, Ne.symm h]
  | cons hd tl ih =>
    obtain ⟨a, b⟩ := hd
    by_cases h1 : a = k
    · simp [setA, lookupA, h1, Ne.symm h]
    · by_cases h2 : a = k'
      · simp [setA, lookupA, h1, h2, h]
      · simpa [setA, lookupA, h1, h2] using ih

theorem lookupA_delA_self {α : Type} (l : List (Nat × α)) (k : Nat) :
    lookupA (delA l k) k = none := by
  induction l with
  | nil => rfl
  | cons hd tl ih =>
    obtain ⟨a, b⟩ := hd
    by_cases h : a = k
    · simpa [delA, h] using ih
    · simpa [delA, lookupA, h] using ih

theorem lookupA_delA_ne {α : Type} (l : List (Nat × α)) (k k' : Nat)
    (h : k' ≠ k) : lookupA (delA l k) k' = lookupA l k' := by
  induction l with
  | nil => rfl
  | cons hd tl ih =>
    obtain ⟨a, b⟩ := hd
    by_cases h1 : a = k
    · simpa [delA, lookupA, h1, Ne.symm h] using ih
    · by_cases h2 : a = k'
      · simp [delA, lookupA, h1, h2, h]
      · simpa [delA, lookupA, h1, h2] using ih

/-! ### Player-list lemmas -/

theorem setFirst_length (pred : Player → Bool) (f : Player → Player)
    (l : List Player) : (setFirst pred f l).length = l.length := by
  induction l with
  | nil => rfl
  | cons p ps ih =>
    by_cases h : pred p
    · simp [setFirst, h]
    · simp [setFirst, h, ih]

theorem setFirst_marked (pred : Player → Bool) (f : Player → Player)
    (l : List Player) (h : ∃ p ∈ l, pred p = true) :
    ∃ p ∈ l, pred p = true ∧ f p ∈ setFirst pred f l := by
  induction l with
  | nil => simp at h
  | cons q ps ih =>
    by_cases hq : pred q
    · exact ⟨q, List.mem_cons_self q ps, hq, by simp [setFirst, hq]⟩
    · obtain ⟨p, hp, hpred⟩ := h
      rcases List.mem_cons.mp hp with rfl | hp2
      · exact absurd hpred (by simp [hq])
      · obtain ⟨p, hp3, hpred3, hmem⟩ := ih ⟨p, hp2, hpred⟩
        exact ⟨p, List.mem_cons_of_mem q hp3, hpred3, by simp [setFirst, hq, hmem]⟩

theorem resetPlayers_fields (l : List Player) (p : Player)
    (h : p ∈ resetPlayers l) :
    p.ready = false ∧ p.score = 0 ∧ p.finished = false ∧ p.eliminated = false := by
  simp only [resetPlayers, List.mem_map] at h
  obtain ⟨q, _, rfl⟩ := h
  exact ⟨rfl, rfl, rfl, rfl⟩

/-- The head of the elimination ranking is the unique surviving player:
`sorted(..., key=(not eliminated, score), reverse=True)` puts the single
non-eliminated player first. -/
theorem sortElim_head_winner (l : List Player) (w : Player)
    (h : l.filter (fun p => !p.eliminated) = [w]) :
    ∃ tl, sortElim l = w :: tl := by
  have hperm : List.Perm (sortElim l) l := List.perm_insertionSort elimRel l
  have hfil : (sortElim l).filter (fun p => !p.eliminated) = [w] := by
    have := (hperm.filter (fun p => !p.eliminated)).trans (by rw [h])
    exact List.perm_singleton.mp this
  have hw : w.eliminated = false := by
    have : w ∈ (sortElim l).filter (fun p => !p.eliminated) := by
      rw [hfil]; exact List.mem_singleton_self w
    simpa using (List.mem_filter.mp this).2
  have hsorted : List.Sorted elimRel (sortElim l) :=
    List.sorted_insertionSort elimRel l
  cases hsort : sortElim l with
  | nil => rw [hsort] at hfil; simp at hfil
  | cons hd tl =>
    rw [hsort] at hfil hsorted
    by_cases hh : hd.eliminated
    · exfalso
      have hwtl : w ∈ tl := by
        have : w ∈ List.filter (fun p => !p.eliminated) (hd :: tl) := by
          rw [hfil]; exact List.mem_singleton_self w
        have := List.mem_filter.mp this
        rcases List.mem_cons.mp this.1 with rfl | hmem
        · rw [hh] at hw; cases hw
        · exact hmem
      have hrel : elimRel hd w := List.rel_of_sorted_cons hsorted w hwtl
      unfold elimRel elimKey at hrel
      rw [hh, hw] at hrel
      simp at hrel
    · have : hd :: List.filter (fun p => !p.eliminated) tl = [w] := by
        rw [← hfil, List.filter_cons]
        simp [hh]
      have hdw : hd = w := by injection this
      exact ⟨tl, by rw [hdw]⟩

/-! ### Room-code generation lemmas -/

theorem tryCodes_spec (oracle : Nat → Fin 1000000) (rooms : List (Nat × Room)) :
    ∀ fuel i c, tryCodes oracle rooms i fuel = some c →
      containsA rooms c = false ∧ c < 1000000 := by
  intro fuel
  induction fuel with
  | zero => intro i c h; cases h
  | succ n ih =>
    intro i c h
    unfold tryCodes at h
    by_cases hc : containsA rooms (oracle i).val
    · rw [if_pos hc] at h
      exact ih (i + 1) c h
    · rw [if_neg hc] at h
      cases h
      exact ⟨by simpa using hc, (oracle i).isLt⟩

theorem zfill6_spec (n : Nat) (h : n < 1000000) :
    (zfill6 n).length = 6 ∧ ∀ d ∈ zfill6 n, d < 10 := by
  have hlen : (Nat.digits 10 n).length ≤ 6 := by
    by_cases hn : n = 0
    · simp [hn]
    · rw [Nat.digits_len 10 n (by norm_num) hn]
      have : Nat.log 10 n < 6 := Nat.log_lt_of_lt_pow hn (by norm_num at h ⊢; exact h)
      omega
  constructor
  · simp only [zfill6, List.length_append, List.length_replicate, List.length_reverse]
    omega
  · intro d hd
    simp only [zfill6, List.mem_append, List.mem_replicate, List.mem_reverse] at hd
    rcases hd with ⟨_, rfl⟩ | hd
    · norm_num
    · exact Nat.digits_lt_base (by norm_num) hd

/-! ### Concrete execution traces -/

/-- A degenerate randomness oracle that always draws the same code. -/
def constOracle (n : Fin 1000000) : Nat → Fin 1000000 := fun _ => n

/-- A placeholder generated board for traces whose content is irrelevant. -/
def boardOnes : Board := List.replicate 9 (List.replicate 9 1)

/-- The empty initial server state. -/
def st0 : ServerState := { rooms := [], sessions := [] }

/-- C2 trace: a `"luck"`-mode room is created by alice, bob joins, both
ready up.  Room code 111111, session ids 1 and 2. -/
def c2a : ServerState × List Event :=
  handleCreateRoom st0 1 "alice" "Medium" "luck" 3
    (constOracle ⟨111111, by norm_num⟩) boardOnes boardOnes 0

def c2b : ServerState × List Event := handleJoinRoom c2a.1 2 111111 "bob"

def c2c : ServerState × List Event := handlePlayerReady c2b.1 1

def c2d : ServerState × List Event := handlePlayerReady c2c.1 2

/-- C10 trace: same shape as the C2 trace (room code 222222), followed by a
reveal action from alice showing that luck-mode turn rotation is live. -/
def c10a : ServerState × List Event :=
  handleCreateRoom st0 1 "alice" "Medium" "luck" 3
    (constOracle ⟨222222, by norm_num⟩) boardOnes boardOnes 0

def c10b : ServerState × List Event := handleJoinRoom c10a.1 2 222222 "bob"

def c10c : ServerState × List Event := handlePlayerReady c10b.1 1

def c10d : ServerState × List Event := handlePlayerReady c10c.1 2

def c10e : ServerState × List Event :=
  handleGameAction c10d.1 1 "reveal" (some 0) (some 0) 0

/-- C1 trace: a `"luck"` room (code 333333) still in `"waiting"` status with
players alice and bob; bob (who does not hold the turn) sends a reveal. -/
def c1a : ServerState × List Event :=
  handleCreateRoom st0 1 "alice" "Medium" "luck" 3
    (constOracle ⟨333333, by norm_num⟩) boardOnes boardOnes 0

def c1b : ServerState × List Event := handleJoinRoom c1a.1 2 333333 "bob"

def c1c : ServerState × List Event :=
  handleGameAction c1b.1 2 "reveal" (some 0) (some 0) 0

/-- C3 trace: alice creates room 444444, then a second connection joins with
the same username `"alice"`. -/
def c3a : ServerState × List Event :=
  handleCreateRoom st0 1 "alice" "Medium" "standard" 3
    (constOracle ⟨444444, by norm_num⟩) boardOnes boardOnes 0

def c3b : ServerState × List Event := handleJoinRoom c3a.1 2 444444 "alice"

/-- C4 trace: a `"turn_based"` room (code 555555), bob joins, both ready. -/
def c4a : ServerState × List Event :=
  handleCreateRoom st0 1 "alice" "Medium" "turn_based" 3
    (constOracle ⟨555555, by norm_num⟩) boardOnes boardOnes 0

def c4b : ServerState × List Event := handleJoinRoom c4a.1 2 555555 "bob"

def c4c : ServerState × List Event := handlePlayerReady c4b.1 1

def c4d : ServerState × List Event := handlePlayerReady c4c.1 2

/-- C5 trace: room 666666 with alice, bob, carol; the host forces
`"luck"` mode (auto-start, `current_turn = alice`); then carol — who does
not hold the turn — is eliminated. -/
def c5a : ServerState × List Event :=
  handleCreateRoom st0 1 "alice" "Medium" "luck" 4
    (constOracle ⟨666666, by norm_num⟩) boardOnes boardOnes 0

def c5b : ServerState × List Event := handleJoinRoom c5a.1 2 666666 "bob"

def c5c : ServerState × List Event := handleJoinRoom c5b.1 3 666666 "carol"

def c5d : ServerState × List Event :=
  handleChangeGameMode c5c.1 1 "luck" 7 boardOnes boardOnes

def c5e : ServerState × List Event :=
  handleGameAction c5d.1 3 "eliminated" none none 5

/-- The all-but-one-cell solved board for the C7 trace. -/
def solvedRow : List Nat := [1, 2, 3, 4, 5, 6, 7, 8, 9]

def c7Solution : Board := List.replicate 9 solvedRow

def c7Puzzle : Board := (0 :: [2, 3, 4, 5, 6, 7, 8, 9]) :: List.replicate 8 solvedRow

/-- C7 trace: room 777777 with alice, bob, carol, one cell from completion;
all ready (game starts), carol is eliminated (two players stay active, the
round continues), then alice completes the puzzle. -/
def c7a : ServerState × List Event :=
  handleCreateRoom st0 1 "alice" "Medium" "standard" 4
    (constOracle ⟨777777, by norm_num⟩) c7Puzzle c7Solution 0

def c7b : ServerState × List Event := handleJoinRoom c7a.1 2 777777 "bob"

def c7c : ServerState × List Event := handleJoinRoom c7b.1 3 777777 "carol"

def c7d : ServerState × List Event := handlePlayerReady c7c.1 1

def c7e : ServerState × List Event := handlePlayerReady c7d.1 2

def c7f : ServerState × List Event := handlePlayerReady c7e.1 3

def c7g : ServerState × List Event :=
  handleGameAction c7f.1 3 "eliminated" none none 5

def c7h : ServerState × List Event := handlePlaceNumber c7g.1 1 0 0 1

/-- Whether an event is the generic `error` emit. -/
def Event.isError : Event → Bool
  | Event.errorMsg _ => true
  | _ => false

/-! ### Claim theorems -/

/-- Claim C2 (code bug): the reachable-state invariant "whenever status is
`playing` and at least one player is non-eliminated, `current_turn` names a
non-eliminated player of the room" fails.  After `create_room` in game mode
`"luck"` (the mode the clients send), a join and two `player_ready` events,
the room is `"playing"` with two non-eliminated players but
`current_turn = None`: `handle_create_room` line 728 only initialises
`current_turn` for the string `"turn_based"`, which no other code path uses. -/
theorem claim_C2_code_bug :
    (lookupA c2d.1.rooms 111111).map Room.status = some "playing" ∧
    (lookupA c2d.1.rooms 111111).map Room.gameMode = some "luck" ∧
    (lookupA c2d.1.rooms 111111).map Room.currentTurn = some none ∧
    (lookupA c2d.1.rooms 111111).map (fun r => r.players.length) = some 2 ∧
    (lookupA c2d.1.rooms 111111).map
      (fun r => r.players.all (fun p => !p.eliminated)) = some true := by
  decide

/-- Claim C7 (code bug): after the terminal `game_ended` emitted by
`handle_place_number` on puzzle completion, an eliminated player keeps
`eliminated = true` — the reset at `app.py` lines 1303-1307 clears `ready`,
`score` and `finished` but, unlike the three other reset paths, not
`eliminated`.  Concretely: carol is eliminated mid-round, alice completes
the puzzle, `game_ended` fires, and carol's flag survives the reset. -/
theorem claim_C7_code_bug :
    c7h.2.any Event.isGameEnded = true ∧
    (lookupA c7h.1.rooms 777777).map Room.status = some "waiting" ∧
    (lookupA c7h.1.rooms 777777).map
        (fun r => r.players.map (fun p => (p.username, p.ready, p.score, p.finished, p.eliminated)))
      = some [("alice", false, 0, false, false), ("bob", false, 0, false, false),
              ("carol", false, 0, false, true)] := by
  decide

/-- Claim C1 (counterexample): a `game_action` from a player who is not the
turn holder, in a room that is not `"playing"`, is neither rejected nor
silently dropped.  In the (reachable) C1 trace the room is `"waiting"` with
`current_turn = None`, bob sends `reveal`, and the handler both broadcasts
`player_action` and mutates the room (`current_turn` becomes `"bob"`). -/
theorem claim_C1_counterexample :
    (lookupA c1b.1.rooms 333333).map Room.status = some "waiting" ∧
    (lookupA c1b.1.rooms 333333).map Room.currentTurn = some none ∧
    (lookupA c1c.1.rooms 333333).map Room.currentTurn = some (some "bob") ∧
    c1c.1 ≠ c1b.1 ∧
    c1c.2 = [Event.playerAction "bob" "reveal" (some 0) (some 0),
             Event.turnChanged "bob"] := by
  decide

/-- Claim C3 (counterexample): `handle_join_room` has no duplicate-username
check (the `AlreadyInRoom` guard exists only in the unused
`join_room_atomic` of `concurrency.py`).  Joining room 444444 — whose sole
player is `"alice"` — with username `"alice"` succeeds, appends a second
`"alice"` and emits no error. -/
theorem claim_C3_counterexample :
    (lookupA c3a.1.rooms 444444).map
      (fun r => r.players.map Player.username) = some ["alice"] ∧
    (lookupA c3b.1.rooms 444444).map
      (fun r => r.players.map Player.username) = some ["alice", "alice"] ∧
    c3b.2.any Event.isError = false ∧
    c3b.2.length = 2 := by
  decide

/-- Claim C4 (counterexample): the `player_ready` transition to `"playing"`
does not request a fresh board and does not clear the per-player ephemeral
fields.  In the C4 trace the game starts, yet every `ready` flag is still
`true` and the puzzle is the board generated at room creation. -/
theorem claim_C4_counterexample :
    (lookupA c4d.1.rooms 555555).map Room.status = some "playing" ∧
    (lookupA c4d.1.rooms 555555).map
      (fun r => r.players.all (fun p => p.ready)) = some true ∧
    (lookupA c4d.1.rooms 555555).map Room.puzzle = some boardOnes := by
  decide

/-- Claim C5 (counterexample): on an elimination that leaves two or more
active players, luck mode advances the turn unconditionally — not "only if
the eliminated player held `current_turn`".  In the C5 trace alice holds the
turn, carol is eliminated, and the turn still moves from alice to bob. -/
theorem claim_C5_counterexample :
    (lookupA c5d.1.rooms 666666).map Room.currentTurn = some (some "alice") ∧
    (lookupA c5e.1.rooms 666666).map Room.currentTurn = some (some "bob") ∧
    (lookupA c5e.1.rooms 666666).map
        (fun r => r.players.map (fun p => (p.username, p.eliminated)))
      = some [("alice", false), ("bob", false), ("carol", true)] ∧
    c5e.2 = [Event.playerEliminated "carol", Event.turnChanged "bob"] := by
  decide

/-- Claim C9 (confirmed): a disconnect with no session entry is a no-op;
otherwise the player is removed from the room's list, the remaining roster
is broadcast, the room entry is deleted exactly when the list becomes
empty (other rooms untouched), the session entry is removed — and after the
last player's disconnect a subsequent `join_room` with that code fails with
"Room not found" and leaves the state unchanged. -/
theorem claim_C9_disconnect (st : ServerState) (sid : Nat) :
    (lookupA st.sessions sid = none → handleDisconnect st sid = (st, [])) ∧
    (∀ sess room, lookupA st.sessions sid = some sess →
      lookupA st.rooms sess.roomCode = some room →
      (handleDisconnect st sid).2 =
        [Event.playerLeft sess.username
          ((room.players.filter (fun p => p.sessionId != sid)).length)
          (room.players.filter (fun p => p.sessionId != sid))] ∧
      lookupA (handleDisconnect st sid).1.sessions sid = none ∧
      (room.players.filter (fun p => p.sessionId != sid) = [] →
        lookupA (handleDisconnect st sid).1.rooms sess.roomCode = none) ∧
      (room.players.filter (fun p => p.sessionId != sid) ≠ [] →
        lookupA (handleDisconnect st sid).1.rooms sess.roomCode =
          some { room with players := room.players.filter (fun p => p.sessionId != sid) }) ∧
      (∀ c, c ≠ sess.roomCode →
        lookupA (handleDisconnect st sid).1.rooms c = lookupA st.rooms c)) ∧
    (∀ sess room, lookupA st.sessions sid = some sess →
      lookupA st.rooms sess.roomCode = some room →
      room.players.filter (fun p => p.sessionId != sid) = [] →
      ∀ (sid2 : Nat) (u : String), u ≠ "" →
        (handleDisconnect st sid).1.sessions.length < 10000 →
        ((sess.roomCode : Int) ≤ 999999) →
        handleJoinRoom (handleDisconnect st sid).1 sid2 (sess.roomCode : Int) u =
          ((handleDisconnect st sid).1, [Event.errorMsg "Room not found"])) := by
  refine ⟨?_, ?_, ?_⟩
  · intro h
    simp only [handleDisconnect, h]
  · intro sess room hsess hroom
    refine ⟨?_, ?_, ?_, ?_, ?_⟩
    · simp only [handleDisconnect, hsess, hroom]
    · simp only [handleDisconnect, hsess, hroom]
      exact lookupA_delA_self st.sessions sid
    · intro hrem
      simp only [handleDisconnect, hsess, hroom, hrem]
      simpa using lookupA_delA_self st.rooms sess.roomCode
    · intro hrem
      have hlen : ((room.players.filter (fun p => p.sessionId != sid)).length == 0) = false := by
        simp [List.length_eq_zero, hrem]
      simp only [handleDisconnect, hsess, hroom, hlen]
      simpa using lookupA_setA_self st.rooms sess.roomCode _
    · intro c hc
      simp only [handleDisconnect, hsess, hroom]
      split
      · exact lookupA_delA_ne st.rooms sess.roomCode c hc
      · exact lookupA_setA_ne st.rooms sess.roomCode c _ hc
  · intro sess room hsess hroom hrem sid2 u hu hcap hle
    have hnone : lookupA (handleDisconnect st sid).1.rooms sess.roomCode = none := by
      simp only [handleDisconnect, hsess, hroom, hrem]
      simpa using lookupA_delA_self st.rooms sess.roomCode
    have hcap2 : ¬ ((handleDisconnect st sid).1.sessions.length ≥ 10000) := by omega
    have hneg : ¬ ((sess.roomCode : Int) < 0 ∨ (sess.roomCode : Int) > 999999) := by
      push_neg
      exact ⟨Int.natCast_nonneg sess.roomCode, hle⟩
    have hu2 : (u == "") = false := by simpa using hu
    simp only [handleJoinRoom, if_neg hcap2, if_neg hneg, hu2, Bool.false_eq_true,
      if_false, Int.toNat_natCast, hnone]

/-- Claim C10 (confirmed): (1) a created room has `current_turn ≠ None`
exactly when the requested game mode string is `"turn_based"`; (2) a
`game_action` never changes any room's `current_turn` unless that room's
mode string is `"luck"` — so a `"turn_based"` room's turn is never advanced
by actions; (3) the host mode change sets `current_turn` to the host
exactly for new mode `"luck"` and to `None` otherwise; (4) consequently a
room created as `"luck"` enters `"playing"` through `player_ready` with
`current_turn = None` while luck-mode turn advancement is live (the next
reveal sets a turn holder). -/
theorem claim_C10_mode_mismatch :
    (∀ code sid username difficulty gameMode maxPlayers puzzle solution now,
      (mkRoom code sid username difficulty gameMode maxPlayers puzzle solution
          now).currentTurn ≠ none ↔ gameMode = "turn_based") ∧
    (∀ st sid action row col clicks code room,
      lookupA st.rooms code = some room → room.gameMode ≠ "luck" →
      (lookupA (handleGameAction st sid action row col clicks).1.rooms code).map
          Room.currentTurn = some room.currentTurn) ∧
    (∀ st sid newMode seed puzzle solution sess room,
      lookupA st.sessions sid = some sess →
      lookupA st.rooms sess.roomCode = some room →
      room.host = sess.username →
      (lookupA (handleChangeGameMode st sid newMode seed puzzle solution).1.rooms
          sess.roomCode).map Room.currentTurn =
        some (if newMode == "luck" then some sess.username else none)) ∧
    ((lookupA c10d.1.rooms 222222).map (fun r => (r.status, r.gameMode, r.currentTurn))
        = some ("playing", "luck", none) ∧
      (lookupA c10e.1.rooms 222222).map Room.currentTurn = some (some "bob")) := by
  refine ⟨?_, ?_, ?_, by decide⟩
  · intro code sid username difficulty gameMode maxPlayers puzzle solution now
    by_cases h : gameMode = "turn_based" <;> simp [mkRoom, h]
  · intro st sid action row col clicks code room hroom hmode
    cases hsess : lookupA st.sessions sid with
    | none => simp only [handleGameAction, hsess, hroom]; rfl
    | some sess =>
      cases hroom2 : lookupA st.rooms sess.roomCode with
      | none => simp only [handleGameAction, hsess, hroom2, hroom]; rfl
      | some room2 =>
        by_cases hcode : code = sess.roomCode
        · subst hcode
          rw [hroom] at hroom2
          cases hroom2
          have hmode2 : (room.gameMode == "luck") = false := by simpa using hmode
          simp only [handleGameAction, hsess, hroom, hmode2, Bool.false_eq_true,
            false_and, if_false]
          split_ifs <;> simp [lookupA_setA_self, hroom]
        · simp only [handleGameAction, hsess, hroom2]
          split_ifs <;>
            simp [lookupA_setA_ne _ _ _ _ hcode, hroom]
  · intro st sid newMode seed puzzle solution sess room hsess hroom hhost
    have hh : (room.host != sess.username) = false := by simp [hhost]
    simp only [handleChangeGameMode, hsess, hroom, hh, Bool.false_eq_true, if_false]
    simp [lookupA_setA_self]

/-- A single-player room used to instantiate C9: bob (session 2) alone in
room 5. -/
def roomW : Room := mkRoom 5 2 "bob" "Medium" "standard" 3 boardOnes boardOnes 0

def stW : ServerState :=
  { rooms := [(5, roomW)], sessions := [(2, { username := "bob", roomCode := 5 })] }

/-- Witness for C9 at a concrete state: after the last player's disconnect
the room is gone and a join with its code fails with "Room not found". -/
theorem claim_C9_witness :
    lookupA (handleDisconnect stW 2).1.rooms 5 = none ∧
    handleJoinRoom (handleDisconnect stW 2).1 3 5 "carol" =
      ((handleDisconnect stW 2).1, [Event.errorMsg "Room not found"]) := by
  have h := claim_C9_disconnect stW 2
  constructor
  · exact (h.2.1 { username := "bob", roomCode := 5 } roomW rfl rfl).2.2.1 (by decide)
  · exact h.2.2 { username := "bob", roomCode := 5 } roomW rfl rfl (by decide)
      3 "carol" (by decide) (by decide) (by decide)

/-- The `"turn_based"` room of the C4 trace after the game started. -/
def c4room : Room := (lookupA c4d.1.rooms 555555).getD default

/-- Witness for C10 at concrete inputs: a `"turn_based"` creation carries a
turn holder, and a reveal in the started `"turn_based"` room leaves
`current_turn` untouched. -/
theorem claim_C10_witness :
    (mkRoom 9 1 "zoe" "Medium" "turn_based" 3 boardOnes boardOnes 0).currentTurn ≠ none ∧
    (lookupA (handleGameAction c4d.1 1 "reveal" (some 0) (some 0) 0).1.rooms 555555).map
      Room.currentTurn = some (some "alice") := by
  constructor
  · exact (claim_C10_mode_mismatch.1 9 1 "zoe" "Medium" "turn_based" 3
      boardOnes boardOnes 0).mpr rfl
  · have h := claim_C10_mode_mismatch.2.1 c4d.1 1 "reveal" (some 0) (some 0) 0
      555555 c4room (by decide) (by decide)
    rw [h]
    decide

/-- The fresh player record appended by `handle_join_room` (lines 801-808). -/
def newJoiner (u : String) (sid : Nat) : Player :=
  { username := u, sessionId := sid, ready := false, score := 0,
    finished := false, eliminated := false, time := 0 }

/-- Claim C3 amended (corrected): for a well-formed join (session capacity
not reached, 0 ≤ code ≤ 999999, non-empty username), `join_room` fails with
"Room not found" when the code is absent, "Game already in progress" when
the status is not `"waiting"`, and "Room is full" when
`len(players) ≥ maxPlayers` — each failure leaving the state unchanged —
and otherwise appends the player and returns the updated snapshot.  Unlike
the original claim, a duplicate username is NOT rejected: the handler has
no `AlreadyInRoom` check (see the counterexample). -/
theorem claim_C3_amended (st : ServerState) (sid : Nat) (code : Int) (u : String)
    (hcap : st.sessions.length < 10000)
    (hlo : 0 ≤ code) (hhi : code ≤ 999999) (hu : u ≠ "") :
    (lookupA st.rooms code.toNat = none →
      handleJoinRoom st sid code u = (st, [Event.errorMsg "Room not found"])) ∧
    (∀ room, lookupA st.rooms code.toNat = some room →
      room.status ≠ "waiting" →
      handleJoinRoom st sid code u = (st, [Event.errorMsg "Game already in progress"])) ∧
    (∀ room, lookupA st.rooms code.toNat = some room →
      room.status = "waiting" → room.maxPlayers ≤ room.players.length →
      handleJoinRoom st sid code u = (st, [Event.errorMsg "Room is full"])) ∧
    (∀ room, lookupA st.rooms code.toNat = some room →
      room.status = "waiting" → room.players.length < room.maxPlayers →
      (handleJoinRoom st sid code u).2 =
        [Event.roomJoined code.toNat room.difficulty room.host
           (room.players ++ [newJoiner u sid]),
         Event.playerJoined u (room.players ++ [newJoiner u sid])] ∧
      lookupA (handleJoinRoom st sid code u).1.rooms code.toNat =
        some { room with players := room.players ++ [newJoiner u sid] } ∧
      lookupA (handleJoinRoom st sid code u).1.sessions sid =
        some { username := u, roomCode := code.toNat }) := by
  have hcap2 : ¬ (st.sessions.length ≥ 10000) := by omega
  have hneg : ¬ (code < 0 ∨ code > 999999) := by omega
  have hu2 : (u == "") = false := by simpa using hu
  refine ⟨?_, ?_, ?_, ?_⟩
  · intro hnone
    simp only [handleJoinRoom, if_neg hcap2, if_neg hneg, hu2, Bool.false_eq_true,
      if_false, hnone]
  · intro room hroom hst
    have hst2 : (room.status != "waiting") = true := by simpa using hst
    simp only [handleJoinRoom, if_neg hcap2, if_neg hneg, hu2, Bool.false_eq_true,
      if_false, hroom, hst2, if_true]
  · intro room hroom hst hfull
    have hst2 : (room.status != "waiting") = false := by simp [hst]
    simp only [handleJoinRoom, if_neg hcap2, if_neg hneg, hu2, Bool.false_eq_true,
      if_false, hroom, hst2, if_pos hfull]
  · intro room hroom hst hspace
    have hst2 : (room.status != "waiting") = false := by simp [hst]
    have hfull2 : ¬ (room.maxPlayers ≤ room.players.length) := by omega
    simp only [handleJoinRoom, if_neg hcap2, if_neg hneg, hu2, Bool.false_eq_true,
      if_false, hroom, hst2, if_neg hfull2]
    exact ⟨rfl, lookupA_setA_self _ _ _, lookupA_setA_self _ _ _⟩

/-- The room of the C3 trace before the duplicate join. -/
def c3room : Room := (lookupA c3a.1.rooms 444444).getD default

/-- Witness for the amended C3: a join to a missing code fails with
"Room not found", and a successful join appends the caller. -/
theorem claim_C3_witness :
    handleJoinRoom c3a.1 7 123456 "dave" = (c3a.1, [Event.errorMsg "Room not found"]) ∧
    (lookupA (handleJoinRoom c3a.1 7 444444 "dave").1.rooms 444444).map
      (fun r => r.players.map Player.username) = some ["alice", "dave"] := by
  constructor
  · exact (claim_C3_amended c3a.1 7 123456 "dave" (by decide) (by decide)
      (by decide) (by decide)).1 (by decide)
  · have h := (claim_C3_amended c3a.1 7 444444 "dave" (by decide) (by decide)
      (by decide) (by decide)).2.2.2 c3room (by decide) (by decide) (by decide)
    have h2 := h.2.1
    have h3 : (444444 : Int).toNat = 444444 := rfl
    rw [h3] at h2
    rw [h2]
    decide

/-- Claim C4 amended (corrected): `player_ready` sets the caller's `ready`
flag to true; if afterwards at least 2 players are present and all are
ready, the status becomes `"playing"` and a `game_start` is broadcast
carrying the room's EXISTING board and roster — no fresh board is
requested, `current_turn` is not (re)initialised, and the ephemeral player
fields are NOT cleared (only the caller's `ready` bit changed); otherwise
the status is unchanged. -/
theorem claim_C4_amended (st : ServerState) (sid : Nat) (sess : PSession) (room : Room)
    (hsess : lookupA st.sessions sid = some sess)
    (hroom : lookupA st.rooms sess.roomCode = some room) :
    ((∃ p ∈ room.players, p.sessionId = sid) →
      ∃ q ∈ readyMark sid room.players, q.sessionId = sid ∧ q.ready = true) ∧
    ((readyMark sid room.players).all (fun p => p.ready) = true →
      2 ≤ (readyMark sid room.players).length →
      (handlePlayerReady st sid).2 =
        [Event.playerReadyUpdate sess.username (readyMark sid room.players) true,
         Event.gameStart room.difficulty room.puzzle room.gameMode
           room.currentTurn (readyMark sid room.players)] ∧
      lookupA (handlePlayerReady st sid).1.rooms sess.roomCode =
        some { room with players := readyMark sid room.players, status := "playing" }) ∧
    (¬ ((readyMark sid room.players).all (fun p => p.ready) = true ∧
        2 ≤ (readyMark sid room.players).length) →
      (handlePlayerReady st sid).2 =
        [Event.playerReadyUpdate sess.username (readyMark sid room.players)
          ((readyMark sid room.players).all (fun p => p.ready))] ∧
      lookupA (handlePlayerReady st sid).1.rooms sess.roomCode =
        some { room with players := readyMark sid room.players }) := by
  refine ⟨?_, ?_, ?_⟩
  · intro hmem
    obtain ⟨p, hp, hpid⟩ := hmem
    have hex : ∃ x ∈ room.players, (fun p => p.sessionId == sid) x = true :=
      ⟨p, hp, by simp [hpid]⟩
    obtain ⟨q, hq, hqpred, hqmem⟩ := setFirst_marked _ _ room.players hex
    refine ⟨{ q with ready := true }, ?_, ?_, rfl⟩
    · simpa using hqmem
    · simpa using hqpred
  · intro hall hlen
    have hc : (readyMark sid room.players).all (fun p => p.ready) = true ∧
        2 ≤ (readyMark sid room.players).length := ⟨hall, hlen⟩
    simp only [handlePlayerReady, hsess, hroom, if_pos hc]
    rw [hall]
    exact ⟨rfl, lookupA_setA_self _ _ _⟩
  · intro hcond
    have : ¬ ((readyMark sid room.players).all (fun p => p.ready) = true ∧
        2 ≤ (readyMark sid room.players).length) := hcond
    simp only [handlePlayerReady, hsess, hroom, if_neg this]
    exact ⟨trivial, lookupA_setA_self _ _ _⟩

/-- The C4-trace room after alice readied but before bob did. -/
def c4cRoom : Room := (lookupA c4c.1.rooms 555555).getD default

/-- Witness for the amended C4: bob's ready call in the C4 trace starts the
game with the creation-time board and leaves the ready flags set. -/
theorem claim_C4_witness :
    lookupA c4d.1.rooms 555555 =
      some { c4cRoom with players := readyMark 2 c4cRoom.players, status := "playing" } := by
  have h := (claim_C4_amended c4c.1 2 { username := "bob", roomCode := 555555 }
    c4cRoom (by decide) (by decide)).2.1 (by decide) (by decide)
  exact h.2

/-- `finishWinner` touches only the `finished` bit of non-eliminated
players, so filtering the survivors commutes with it. -/
theorem filter_finishWinner (l : List Player) :
    (finishWinner l).filter (fun p => !p.eliminated) =
      (l.filter (fun p => !p.eliminated)).map (fun p => { p with finished := true }) := by
  induction l with
  | nil => rfl
  | cons p ps ih =>
    by_cases h : p.eliminated
    · simp [finishWinner, List.filter_cons, h] at ih ⊢
      exact ih
    · simp [finishWinner, List.filter_cons, h] at ih ⊢
      exact ih

/-- Claim C5 amended (corrected): an elimination event marks the acting
player `eliminated = true, finished = true, score = clamped clicks`.  With
`active` the non-eliminated players afterwards: if exactly one remains, a
single `player_eliminated` notice naming the survivor as winner plus
exactly one `game_ended` (survivor ranked first) are emitted and the room
resets to `"waiting"` with all four ephemeral fields cleared; if none
remain, one terminal `game_ended` with no distinguished winner is emitted
and the room resets; otherwise only the elimination notice (no
`game_ended`) is broadcast and — unlike the original claim — in luck mode
the turn is advanced by the scan whenever it finds a live player,
regardless of whether the eliminated player held `current_turn` (in other
modes the turn is untouched). -/
theorem claim_C5_amended (st : ServerState) (sid : Nat) (sess : PSession)
    (room : Room) (clicks : Int)
    (hsess : lookupA st.sessions sid = some sess)
    (hroom : lookupA st.rooms sess.roomCode = some room) :
    ((∃ p ∈ room.players, p.sessionId = sid) →
      ∃ q ∈ elimPlayers sid clicks room.players,
        q.sessionId = sid ∧ q.eliminated = true ∧ q.finished = true ∧
        q.score = clampClicks clicks) ∧
    (∀ w, (elimPlayers sid clicks room.players).filter (fun p => !p.eliminated) = [w] →
      (handleGameAction st sid "eliminated" none none clicks).2 =
        [Event.playerEliminatedWin sess.username w.username,
         Event.gameEnded (sortElim (finishWinner (elimPlayers sid clicks room.players)))] ∧
      (∃ tl, sortElim (finishWinner (elimPlayers sid clicks room.players)) =
        { w with finished := true } :: tl) ∧
      lookupA (handleGameAction st sid "eliminated" none none clicks).1.rooms
          sess.roomCode =
        some { room with
                 status := "waiting"
                 players := resetPlayers (finishWinner (elimPlayers sid clicks room.players)) } ∧
      (∀ p ∈ resetPlayers (finishWinner (elimPlayers sid clicks room.players)),
        p.ready = false ∧ p.score = 0 ∧ p.finished = false ∧ p.eliminated = false)) ∧
    ((elimPlayers sid clicks room.players).filter (fun p => !p.eliminated) = [] →
      (handleGameAction st sid "eliminated" none none clicks).2 =
        [Event.gameEnded (elimPlayers sid clicks room.players)] ∧
      lookupA (handleGameAction st sid "eliminated" none none clicks).1.rooms
          sess.roomCode =
        some { room with
                 status := "waiting"
                 players := resetPlayers (elimPlayers sid clicks room.players) } ∧
      (∀ p ∈ resetPlayers (elimPlayers sid clicks room.players),
        p.ready = false ∧ p.score = 0 ∧ p.finished = false ∧ p.eliminated = false)) ∧
    (2 ≤ ((elimPlayers sid clicks room.players).filter (fun p => !p.eliminated)).length →
      (handleGameAction st sid "eliminated" none none clicks).2.any Event.isGameEnded
        = false ∧
      (room.gameMode ≠ "luck" →
        handleGameAction st sid "eliminated" none none clicks =
          ({ st with rooms := setA st.rooms sess.roomCode ({ room with players := elimPlayers sid clicks room.players }) },
           [Event.playerEliminated sess.username])) ∧
      (room.gameMode = "luck" →
        handleGameAction st sid "eliminated" none none clicks =
          ({ st with rooms := (setA st.rooms sess.roomCode (advanceTurn { room with players := elimPlayers sid clicks room.players }).1) },
           Event.playerEliminated sess.username ::
             (advanceTurn { room with players := elimPlayers sid clicks room.players }).2))) := by
  have hact1 : ¬ ((("eliminated" : String) != "reveal") = true ∧
      (("eliminated" : String) != "flag") = true ∧
      (("eliminated" : String) != "eliminated") = true) := by decide
  have hact2 : ¬ (((("eliminated" : String) == "reveal") = true ∨
      (("eliminated" : String) == "flag") = true) ∧
      (boundBad none = true ∨ boundBad none = true)) := by decide
  have hact3 : (("eliminated" : String) == "eliminated") = true := by decide
  refine ⟨?_, ?_, ?_, ?_⟩
  · intro hmem
    obtain ⟨p, hp, hpid⟩ := hmem
    have hex : ∃ x ∈ room.players, (fun p => p.sessionId == sid) x = true :=
      ⟨p, hp, by simp [hpid]⟩
    obtain ⟨q, hq, hqpred, hqmem⟩ := setFirst_marked _ (elimMark clicks) room.players hex
    refine ⟨elimMark clicks q, ?_, ?_, rfl, rfl, rfl⟩
    · simpa [elimPlayers] using hqmem
    · simpa [elimMark] using hqpred
  · intro w hw
    have hlen1 : (((elimPlayers sid clicks room.players).filter
        (fun p => !p.eliminated)).length == 1) = true := by simp [hw]
    have hwin : ((elimPlayers sid clicks room.players).filter
        (fun p => !p.eliminated)).getD 0 default = w := by simp [hw]
    simp only [handleGameAction, hsess, hroom, if_neg hact1, if_neg hact2, hact3,
      if_true, hlen1, if_pos, hwin]
    refine ⟨trivial, ?_, lookupA_setA_self _ _ _, fun p hp => resetPlayers_fields _ p hp⟩
    apply sortElim_head_winner
    rw [filter_finishWinner, hw]
    rfl
  · intro hw
    have hlen1 : (((elimPlayers sid clicks room.players).filter
        (fun p => !p.eliminated)).length == 1) = false := by simp [hw]
    have hlen0 : (((elimPlayers sid clicks room.players).filter
        (fun p => !p.eliminated)).length == 0) = true := by simp [hw]
    simp only [handleGameAction, hsess, hroom, if_neg hact1, if_neg hact2, hact3,
      if_true, hlen1, Bool.false_eq_true, if_false, hlen0]
    exact ⟨trivial, lookupA_setA_self _ _ _, fun p hp => resetPlayers_fields _ p hp⟩
  · intro hmany
    have hlen1 : (((elimPlayers sid clicks room.players).filter
        (fun p => !p.eliminated)).length == 1) = false := by
      rw [beq_eq_false_iff_ne]
      omega
    have hlen0 : (((elimPlayers sid clicks room.players).filter
        (fun p => !p.eliminated)).length == 0) = false := by
      rw [beq_eq_false_iff_ne]
      omega
    refine ⟨?_, ?_, ?_⟩
    · simp only [handleGameAction, hsess, hroom, if_neg hact1, if_neg hact2, hact3,
        if_true, hlen1, hlen0, Bool.false_eq_true, if_false]
      split
      · simp [advanceTurn, Event.isGameEnded]
        split <;> simp [Event.isGameEnded]
      · simp [Event.isGameEnded]
    · intro hmode
      have hmode2 : (room.gameMode == "luck") = false := by simpa using hmode
      simp only [handleGameAction, hsess, hroom, if_neg hact1, if_neg hact2, hact3,
        if_true, hlen1, hlen0, Bool.false_eq_true, if_false, hmode2]
    · intro hmode
      have hmode2 : (room.gameMode == "luck") = true := by simp [hmode]
      simp only [handleGameAction, hsess, hroom, if_neg hact1, if_neg hact2, hact3,
        if_true, hlen1, hlen0, Bool.false_eq_true, if_false, hmode2, if_true]

/-- The C5-trace room right before carol's elimination. -/
def c5dRoom : Room := (lookupA c5d.1.rooms 666666).getD default

/-- Witness for the amended C5: carol's elimination in the running luck
room leaves two active players, emits only the elimination notice and the
turn change produced by the scan. -/
theorem claim_C5_witness :
    handleGameAction c5d.1 3 "eliminated" none none 5 =
      ({ c5d.1 with rooms := (setA c5d.1.rooms 666666 (advanceTurn ({ c5dRoom with players := elimPlayers 3 5 c5dRoom.players })).1) },
       Event.playerEliminated "carol" ::
         (advanceTurn ({ c5dRoom with players := elimPlayers 3 5 c5dRoom.players })).2) := by
  have h := (claim_C5_amended c5d.1 3 { username := "carol", roomCode := 666666 }
    c5dRoom 5 (by decide) (by decide)).2.2.2 (by decide)
  exact h.2.2 (by decide)

/-- Neither branch of the turn-advance block emits an error or a
`game_ended`. -/
theorem advanceTurn_events (room : Room) :
    (advanceTurn room).2.any Event.isError = false ∧
    (advanceTurn room).2.any Event.isGameEnded = false := by
  simp only [advanceTurn]
  cases nextTurnIdx room.players
      (((room.players.findIdx? (fun p => some p.username == room.currentTurn)).getD 0 + 1) %
        room.players.length) room.players.length <;>
    simp [Event.isError, Event.isGameEnded]

/-- Claim C1 amended (corrected): `handle_game_action` performs NO gating at
all — not on the actor's `eliminated` flag, not on the room status, and not
on `current_turn`.  Any bounds-valid `reveal`/`flag` from a connected actor
in an existing room is relayed as `player_action` (never dropped, never an
error); a `flag` leaves the whole server state unchanged; a `reveal` leaves
the state unchanged except in luck mode, where it rotates `current_turn`
through the advance scan. -/
theorem claim_C1_amended (st : ServerState) (sid : Nat) (sess : PSession)
    (room : Room) (action : String) (row col : Option Int) (clicks : Int)
    (hsess : lookupA st.sessions sid = some sess)
    (hroom : lookupA st.rooms sess.roomCode = some room)
    (hact : action = "reveal" ∨ action = "flag")
    (hrow : boundBad row = false) (hcol : boundBad col = false) :
    (∃ rest, (handleGameAction st sid action row col clicks).2 =
      Event.playerAction sess.username action row col :: rest) ∧
    (handleGameAction st sid action row col clicks).2.any Event.isError = false ∧
    (action = "flag" →
      handleGameAction st sid action row col clicks =
        (st, [Event.playerAction sess.username action row col])) ∧
    (room.gameMode ≠ "luck" →
      handleGameAction st sid action row col clicks =
        (st, [Event.playerAction sess.username action row col])) ∧
    (action = "reveal" → room.gameMode = "luck" →
      handleGameAction st sid action row col clicks =
        ({ st with rooms := setA st.rooms sess.roomCode (advanceTurn room).1 },
         Event.playerAction sess.username action row col :: (advanceTurn room).2)) := by
  rcases hact with rfl | rfl
  · have hact1 : ¬ ((("reveal" : String) != "reveal") = true ∧
        (("reveal" : String) != "flag") = true ∧
        (("reveal" : String) != "eliminated") = true) := by decide
    have hact2 : ¬ (((("reveal" : String) == "reveal") = true ∨
        (("reveal" : String) == "flag") = true) ∧
        (boundBad row = true ∨ boundBad col = true)) := by
      rw [hrow, hcol]
      decide
    have hact3 : (("reveal" : String) == "eliminated") = false := by decide
    by_cases hmode : room.gameMode = "luck"
    · have hact4 : (room.gameMode == "luck") = true ∧
          (("reveal" : String) == "reveal") = true := ⟨by simp [hmode], by decide⟩
      simp only [handleGameAction, hsess, hroom, if_neg hact1, if_neg hact2, hact3,
        Bool.false_eq_true, if_false, if_pos hact4]
      refine ⟨⟨(advanceTurn room).2, rfl⟩, ?_, ?_, ?_, fun _ _ => trivial⟩
      · simpa [Event.isError] using (advanceTurn_events room).1
      · intro h
        exact absurd h (by decide)
      · intro h
        exact absurd hmode h
    · have hact4 : ¬ ((room.gameMode == "luck") = true ∧
          (("reveal" : String) == "reveal") = true) := by
        intro h
        exact hmode (by simpa using h.1)
      simp only [handleGameAction, hsess, hroom, if_neg hact1, if_neg hact2, hact3,
        Bool.false_eq_true, if_false, if_neg hact4]
      refine ⟨⟨[], rfl⟩, by simp [Event.isError], ?_, fun _ => trivial, ?_⟩
      · intro h
        exact absurd h (by decide)
      · intro _ h
        exact absurd h hmode
  · have hact1 : ¬ ((("flag" : String) != "reveal") = true ∧
        (("flag" : String) != "flag") = true ∧
        (("flag" : String) != "eliminated") = true) := by decide
    have hact2 : ¬ (((("flag" : String) == "reveal") = true ∨
        (("flag" : String) == "flag") = true) ∧
        (boundBad row = true ∨ boundBad col = true)) := by
      rw [hrow, hcol]
      decide
    have hact3 : (("flag" : String) == "eliminated") = false := by decide
    have hact4 : ¬ ((room.gameMode == "luck") = true ∧
        (("flag" : String) == "reveal") = true) := by
      intro h
      exact absurd h.2 (by decide)
    simp only [handleGameAction, hsess, hroom, if_neg hact1, if_neg hact2, hact3,
      Bool.false_eq_true, if_false, if_neg hact4]
    refine ⟨⟨[], rfl⟩, by simp [Event.isError], fun _ => trivial, fun _ => trivial, ?_⟩
    intro h
    exact absurd h (by decide)

/-- The C1-trace room (status `"waiting"`, luck mode) before bob's reveal. -/
def c1bRoom : Room := (lookupA c1b.1.rooms 333333).getD default

/-- Witness for the amended C1: bob's reveal in the waiting luck room is
relayed and rotates the turn. -/
theorem claim_C1_witness :
    handleGameAction c1b.1 2 "reveal" (some 0) (some 0) 0 =
      ({ c1b.1 with rooms := setA c1b.1.rooms 333333 (advanceTurn c1bRoom).1 },
       Event.playerAction "bob" "reveal" (some 0) (some 0) :: (advanceTurn c1bRoom).2) := by
  exact (claim_C1_amended c1b.1 2 { username := "bob", roomCode := 333333 } c1bRoom
    "reveal" (some 0) (some 0) 0 (by decide) (by decide) (Or.inl rfl)
    (by decide) (by decide)).2.2.2.2 rfl (by decide)

/-- Claim C6 (confirmed): a `game_finished` that makes the last unfinished
player finished emits `player_finished` followed by exactly one `game_ended`
whose payload is a permutation of the roster sorted by score descending
with elapsed time ascending as the tie-break (equal scores: lower time
first), and the room is reset to `"waiting"` with the ephemeral fields
cleared. -/
theorem claim_C6_race (st : ServerState) (sid : Nat) (sess : PSession)
    (room : Room) (score time : Int)
    (hsess : lookupA st.sessions sid = some sess)
    (hroom : lookupA st.rooms sess.roomCode = some room)
    (hmode : room.gameMode = "race")
    (hall : (finishMark sid (clampScoreTime score time).1 (clampScoreTime score time).2
        room.players).all (fun p => p.finished) = true) :
    (handleGameFinished st sid score time).2 =
      [Event.playerFinished sess.username,
       Event.gameEnded (sortRace (finishMark sid (clampScoreTime score time).1
         (clampScoreTime score time).2 room.players))] ∧
    List.Perm
      (sortRace (finishMark sid (clampScoreTime score time).1
        (clampScoreTime score time).2 room.players))
      (finishMark sid (clampScoreTime score time).1
        (clampScoreTime score time).2 room.players) ∧
    List.Pairwise raceRel
      (sortRace (finishMark sid (clampScoreTime score time).1
        (clampScoreTime score time).2 room.players)) ∧
    lookupA (handleGameFinished st sid score time).1.rooms sess.roomCode =
      some { room with
               status := "waiting"
               players := resetPlayers (finishMark sid (clampScoreTime score time).1
                 (clampScoreTime score time).2 room.players) } ∧
    (∀ p ∈ resetPlayers (finishMark sid (clampScoreTime score time).1
        (clampScoreTime score time).2 room.players),
      p.ready = false ∧ p.score = 0 ∧ p.finished = false ∧ p.eliminated = false) := by
  refine ⟨?_, List.perm_insertionSort raceRel _, List.sorted_insertionSort raceRel _,
    ?_, fun p hp => resetPlayers_fields _ p hp⟩
  · simp only [handleGameFinished, hsess, hroom, hall, if_pos]
  · simp only [handleGameFinished, hsess, hroom, hall, if_pos]
    exact lookupA_setA_self _ _ _

/-- C6 trace (scenario B): race room 888888 with alice and bob; alice
finishes with score 500 and time 30, then bob with score 500 and time 45. -/
def c6a : ServerState × List Event :=
  handleCreateRoom st0 1 "alice" "Medium" "race" 3
    (constOracle ⟨888888, by norm_num⟩) boardOnes boardOnes 0

def c6b : ServerState × List Event := handleJoinRoom c6a.1 2 888888 "bob"

def c6c : ServerState × List Event := handleGameFinished c6b.1 1 500 30

def c6d : ServerState × List Event := handleGameFinished c6c.1 2 500 45

/-- The C6-trace room after alice finished, before bob's finish. -/
def c6cRoom : Room := (lookupA c6c.1.rooms 888888).getD default

/-- Witness for C6 on scenario B: with equal scores 500 and times 30 vs 45
the `game_ended` payload ranks alice (lower time) first. -/
theorem claim_C6_witness :
    c6d.2 =
      [Event.playerFinished "bob",
       Event.gameEnded
         [{ username := "alice", sessionId := 1, ready := false, score := 500,
            finished := true, eliminated := false, time := 30 },
          { username := "bob", sessionId := 2, ready := false, score := 500,
            finished := true, eliminated := false, time := 45 }]] := by
  have h := (claim_C6_race c6c.1 2 { username := "bob", roomCode := 888888 }
    c6cRoom 500 45 (by decide) (by decide) (by decide) (by decide)).1
  rw [show c6d.2 = (handleGameFinished c6c.1 2 500 45).2 from rfl, h]
  decide

/-- Claim C8 (confirmed): whenever room-code generation returns a code, it
is a 6-digit numeric string absent from the (possibly cleaned-up) registry
it returns; after 100 failed draws the rooms idle for more than 30 minutes
are reclaimed (exactly those whose `created_at` is older than the TTL) and
generation retries for another 100 draws; if those fail too, the result is
the capacity error "Server at capacity - all room codes in use" rather than
a code or an unhandled fault. -/
theorem claim_C8_codegen (oracle : Nat → Fin 1000000)
    (rooms : List (Nat × Room)) (now : Nat) :
    (∀ c, (generateRoomCodeWithRetry oracle rooms now).1 = some c →
      containsA (generateRoomCodeWithRetry oracle rooms now).2.2 c = false ∧
      (zfill6 c).length = 6 ∧ (∀ d ∈ zfill6 c, d < 10)) ∧
    ((generateRoomCodeWithRetry oracle rooms now).1 = none →
      (generateRoomCodeWithRetry oracle rooms now).2.1 =
        some "Server at capacity - all room codes in use") ∧
    (tryCodes oracle rooms 0 100 = none →
      (generateRoomCodeWithRetry oracle rooms now).2.2 =
        cleanupInactiveRooms rooms now 30 ∧
      (generateRoomCodeWithRetry oracle rooms now).1 =
        tryCodes oracle (cleanupInactiveRooms rooms now 30) 100 100) ∧
    (∀ e, e ∈ cleanupInactiveRooms rooms now 30 ↔
      e ∈ rooms ∧ ¬ (e.2.createdAt + 30 * 60 < now)) := by
  refine ⟨?_, ?_, ?_, ?_⟩
  · intro c hc
    cases h1 : tryCodes oracle rooms 0 100 with
    | some c1 =>
      simp only [generateRoomCodeWithRetry, h1] at hc ⊢
      cases hc
      obtain ⟨hfresh, hlt⟩ := tryCodes_spec oracle rooms 100 0 c h1
      exact ⟨hfresh, (zfill6_spec c hlt).1, (zfill6_spec c hlt).2⟩
    | none =>
      cases h2 : tryCodes oracle (cleanupInactiveRooms rooms now 30) 100 100 with
      | some c2 =>
        simp only [generateRoomCodeWithRetry, h1, h2] at hc ⊢
        cases hc
        obtain ⟨hfresh, hlt⟩ :=
          tryCodes_spec oracle (cleanupInactiveRooms rooms now 30) 100 100 c h2
        exact ⟨hfresh, (zfill6_spec c hlt).1, (zfill6_spec c hlt).2⟩
      | none =>
        simp only [generateRoomCodeWithRetry, h1, h2] at hc
        exact Option.noConfusion hc
  · intro hc
    cases h1 : tryCodes oracle rooms 0 100 with
    | some c1 =>
      simp only [generateRoomCodeWithRetry, h1] at hc
      exact Option.noConfusion hc
    | none =>
      cases h2 : tryCodes oracle (cleanupInactiveRooms rooms now 30) 100 100 with
      | some c2 =>
        simp only [generateRoomCodeWithRetry, h1, h2] at hc
        exact Option.noConfusion hc
      | none => simp only [generateRoomCodeWithRetry, h1, h2]
  · intro h1
    cases h2 : tryCodes oracle (cleanupInactiveRooms rooms now 30) 100 100 with
    | some c2 =>
      simp only [generateRoomCodeWithRetry, h1, h2]
      exact ⟨trivial, trivial⟩
    | none =>
      simp only [generateRoomCodeWithRetry, h1, h2]
      exact ⟨trivial, trivial⟩
  · intro e
    simp [cleanupInactiveRooms, List.mem_filter]

/-- A registry holding the single room code 0, created at time 0. -/
def oldRooms : List (Nat × Room) :=
  [(0, mkRoom 0 9 "eve" "Medium" "standard" 3 boardOnes boardOnes 0)]

/-- The always-zero randomness oracle. -/
def oracleZ : Nat → Fin 1000000 := constOracle ⟨0, by norm_num⟩

/-- Witness for C8: with every draw colliding with the stale room 0, the
cleanup sweep reclaims it and the retry returns code 0 as a fresh 6-digit
code; if nothing can be reclaimed (same registry at time 0), generation
reports the capacity error. -/
theorem claim_C8_witness :
    (containsA (generateRoomCodeWithRetry oracleZ oldRooms 100000).2.2 0 = false ∧
      (zfill6 0).length = 6) ∧
    (generateRoomCodeWithRetry oracleZ oldRooms 0).2.1 =
      some "Server at capacity - all room codes in use" := by
  constructor
  · have h := (claim_C8_codegen oracleZ oldRooms 100000).1 0 (by decide)
    exact ⟨h.1, h.2.1⟩
  · exact (claim_C8_codegen oracleZ oldRooms 0).2.1 (by decide)

end SudokuMP
